import Mathlib

/-!
Verification of the motion-and-compositing engine of the AI-Video-Ge
repository (src/app/ai.py and src/app/main.py) against its natural-language
specification.

The Python code is shallowly embedded:
* exact rational arithmetic (`ℚ`) stands for Python floats in the path
  sampler, the frame-ordering pass and the per-frame sprite loop;
* real arithmetic (`ℝ`) stands for Python floats in the motion-path builder,
  which calls the transcendental functions `math.sin` / `math.cos`;
* Python `int(x)` is truncation toward zero (`pyTrunc`), Python `x % 1.0`
  is floor-remainder (`pyMod1`), and Python list indexing (which accepts
  negative indices) is `pyGet`;
* the seeded pseudo-random generator `random.Random(seed)` of
  `composite_video` is modelled as a pair of abstract draw streams (`u` for
  `random()`-style unit-interval draws, `z` for the integer draws behind
  `randint`/`choice`) read at an explicitly threaded counter position: the
  stdlib generator is deterministic, so a seed determines the streams, and
  every branch of the path builder consumes them in source order;
* the filesystem / encoder effects of `composite_video` are modelled as the
  ordered list of operations the function performs (`FSOp`).
-/

namespace AIVideoGe

/-- Python `int(x)` applied to a float: truncation toward zero. -/
def pyTrunc (q : ℚ) : ℤ :=
  if 0 ≤ q then ⌊q⌋ else ⌈q⌉

/-- Python list indexing `points[i]`: a negative index `i` addresses
`points[len(points) + i]`.  Out-of-range accesses (which raise in Python but
never occur on the paths exercised here) default to `(0, 0)`. -/
def pyGet (points : List (ℚ × ℚ)) (i : ℤ) : ℚ × ℚ :=
  if i < 0 then points.getD ((points.length : ℤ) + i).toNat (0, 0)
  else points.getD i.toNat (0, 0)

/-- The cubic ease-in-out applied to the segment-local fraction
(src/app/ai.py lines 417-420, repeated verbatim for the frame parameter at
lines 460-463). -/
def easeInOut (s : ℚ) : ℚ :=
  if s < 1 / 2 then 4 * s ^ 3 else 1 - (-2 * s + 2) ^ 3 / 2

/-- The sampler `get_path_position(points, t)` of src/app/ai.py lines 396-426:
sample a position along a control-point path at parameter `t`. -/
def get_path_position (points : List (ℚ × ℚ)) (t : ℚ) : ℚ × ℚ :=
  if points = [] then (0, 0)
  else
    let t_looped : ℚ := t - (pyTrunc t : ℚ)
    let num_segments : ℤ := (points.length : ℤ) - 1
    let segment_idx : ℤ :=
      min (pyTrunc (t_looped * (num_segments : ℚ))) (num_segments - 1)
    let segment_t : ℚ := t_looped * (num_segments : ℚ) - (segment_idx : ℚ)
    let p1 := pyGet points segment_idx
    let p2 := pyGet points (segment_idx + 1)
    let st := easeInOut segment_t
    (p1.1 + (p2.1 - p1.1) * st, p1.2 + (p2.2 - p1.2) * st)

/-- Per-sprite data consumed by the per-frame ordering pass of
`composite_video` (src/app/ai.py lines 436-467): the motion dict's
`control_points` together with the sprite's `path_speed` setting
(`char_settings.get('path_speed', 1.0)`, default `1.0`). -/
structure SpriteMotion where
  control_points : List (ℚ × ℚ)
  path_speed : ℚ

instance : Inhabited SpriteMotion := ⟨⟨[], 1⟩⟩

/-- Python float remainder `a % 1.0` (the result carries the divisor's
sign, so it lies in `[0, 1)`). -/
def pyMod1 (a : ℚ) : ℚ := a - ⌊a⌋

/-- The depth-sort key computed at src/app/ai.py line 443: the `y` of the
path position sampled at the raw frame time `t`. -/
def sortKeyY (ms : List SpriteMotion) (t : ℚ) (i : ℕ) : ℚ :=
  (get_path_position (ms.getD i default).control_points t).2

/-- The order in which sprites are alpha-composited in a frame
(src/app/ai.py lines 436-447): if every motion has a nonempty
`control_points` list, indices are stably sorted ascending by `sortKeyY`,
else they stay in enumeration order.  Python's `list.sort` is a stable
ascending sort, extensionally equal to `List.insertionSort` on this total
preorder. -/
def spriteOrder (ms : List SpriteMotion) (t : ℚ) : List ℕ :=
  if ms.all (fun m => !m.control_points.isEmpty) then
    List.insertionSort (fun i j => sortKeyY ms t i ≤ sortKeyY ms t j) (List.range ms.length)
  else
    List.range ms.length

/-- The sampling parameter actually used when pasting a sprite
(src/app/ai.py lines 454-463): `t_adjusted = (t * path_speed * 1.5) % 1.0`
followed by the cubic ease-in-out. -/
def pasteParam (t speed : ℚ) : ℚ := easeInOut (pyMod1 (t * speed * (3/2)))

/-- The `y` coordinate of the transform position used to paste a sprite in
a frame (src/app/ai.py lines 466-467). -/
def pasteY (m : SpriteMotion) (t : ℚ) : ℚ :=
  (get_path_position m.control_points (pasteParam t m.path_speed)).2

/-- The two-sprite scene exhibiting the C3 counterexample. -/
def c3Scene : List SpriteMotion :=
  [⟨[((0:ℚ), (0:ℚ)), (0, 10)], 1⟩, ⟨[((0:ℚ), (7:ℚ)), (0, 7)], 1⟩]

/-- A sprite as the per-frame render loop sees it (src/app/ai.py lines
536-542): native size `w × h` and the frame's scale factors `sx`, `sy`. -/
structure SpriteFrame where
  w : ℕ
  h : ℕ
  sx : ℚ
  sy : ℚ

/-- The per-frame sprite loop of src/app/ai.py lines 536-555, restricted to
what it emits: target size `(int(w*sx), int(h*sy))` per sprite, skipping a
sprite whenever either dimension is below 5 pixels (`continue`, line 542). -/
def renderFrameSprites : List SpriteFrame → List (ℤ × ℤ)
  | [] => []
  | s :: rest =>
    let aw := pyTrunc ((s.w : ℚ) * s.sx)
    let ah := pyTrunc ((s.h : ℚ) * s.sy)
    if aw < 5 ∨ ah < 5 then renderFrameSprites rest
    else (aw, ah) :: renderFrameSprites rest

/-- Python `f"f_{f:05d}"`: decimal digits left-padded with zeros to width 5. -/
def pad5 (n : ℕ) : String :=
  let s := toString n
  String.mk (List.replicate (5 - s.length) ('0')) ++ s

/-- The frame filename `f"f_{f:05d}.png"` of src/app/ai.py line 559. -/
def frameName (f : ℕ) : String := "f_" ++ pad5 f ++ ".png"

/-- Filesystem / encoder operations performed by `composite_video`. -/
inductive FSOp where
  | mkFramesDir : FSOp
  | saveFrame : String → FSOp
  | encodeCall : String → ℕ → FSOp
  | removeDir : FSOp
deriving DecidableEq

/-- The ordered effect trace of `composite_video` (src/app/ai.py lines
391-589): create the temporary frames directory (`tempfile.mkdtemp`, line
391), save `n_frames = duration_s * fps` frames (lines 107, 429, 559-560),
then invoke ffmpeg on the pattern `f_%05d.png` with `framerate=fps` (lines
566-587).  No directory-removal operation appears anywhere in the
function. -/
def composite_video_trace (duration_s fps : ℕ) : List FSOp :=
  FSOp.mkFramesDir ::
    ((List.range (duration_s * fps)).map (fun f => FSOp.saveFrame (frameName f)) ++
      [FSOp.encodeCall ("f_%05d.png") fps])

/-- The frame filename carried by a `saveFrame` operation. -/
def saveName : FSOp → Option String
  | FSOp.saveFrame n => some n
  | _ => none

/-- The validation prefix of the `/generate` endpoint (src/app/main.py
lines 288-295) ahead of `composite_video`: a request whose
`duration_seconds` lies outside `[10, 25]` is rejected with HTTP 400
`duration_seconds must be 10-25` before anything else runs; with no valid
characters it is rejected with `No valid characters found`; otherwise the
render pipeline runs and its effect trace is produced. -/
def generate_video_model (duration_seconds : ℤ) (fps : ℕ) (character_ids : List ℕ) :
    Except String (List FSOp) :=
  if ¬ (10 ≤ duration_seconds ∧ duration_seconds ≤ 25) then
    Except.error ("duration_seconds must be 10-25")
  else if character_ids = [] then
    Except.error ("No valid characters found")
  else
    Except.ok (composite_video_trace duration_seconds.toNat fps)

noncomputable section

/-- Clamping of a coordinate pair into `[margin, dimension - margin]`, as
written inline throughout the path builder (e.g. src/app/ai.py lines
192-193). -/
def clampPt (margin w h x y : ℝ) : ℝ × ℝ :=
  (max margin (min (w - margin) x), max margin (min (h - margin) y))

/-- The anchor-to-control-point conversion of src/app/ai.py lines 270-307
(`num_segments = 4`) and lines 334-365 (`num_segments = 5`): for every
anchor, emit the anchor itself and `num_segments - 1` Catmull-Rom
interpolated points toward the next anchor, neighbours taken modulo the
anchor count, interpolated points clamped to canvas bounds.  No iterations
run for an empty anchor list, mirroring `range(len(anchor_points))`. -/
def catmullRom (numSeg : ℕ) (anchors : List (ℝ × ℝ)) (margin w h : ℝ) : List (ℝ × ℝ) :=
  (List.range anchors.length).flatMap (fun j =>
    let n := anchors.length
    let p0 := anchors.getD ((j + n - 1) % n) (0, 0)
    let p1 := anchors.getD j (0, 0)
    let p2 := anchors.getD ((j + 1) % n) (0, 0)
    let p3 := anchors.getD ((j + 2) % n) (0, 0)
    p1 :: (List.range (numSeg - 1)).map (fun s0 =>
      let t : ℝ := ((s0 + 1 : ℕ) : ℝ) / (numSeg : ℝ)
      let t2 := t * t
      let t3 := t2 * t
      let x := 0.5 * ((2 * p1.1) + (-p0.1 + p2.1) * t +
        (2 * p0.1 - 5 * p1.1 + 4 * p2.1 - p3.1) * t2 +
        (-p0.1 + 3 * p1.1 - 3 * p2.1 + p3.1) * t3)
      let y := 0.5 * ((2 * p1.2) + (-p0.2 + p2.2) * t +
        (2 * p0.2 - 5 * p1.2 + 4 * p2.2 - p3.2) * t2 +
        (-p0.2 + 3 * p1.2 - 3 * p2.2 + p3.2) * t3)
      clampPt margin w h x y))

/-- The per-sprite settings dict of `composite_video` (`character_settings`
values): every recognized key, absent (`none`) when unset. -/
structure CharSettings where
  scale : Option ℝ := none
  scale_variation : Option ℝ := none
  rotation : Option ℝ := none
  fixed_position : Option Bool := none
  position_x : Option ℝ := none
  position_y : Option ℝ := none
  micro_movement : Option ℝ := none
  move_range : Option ℝ := none
  path_type : Option String := none
  breathe_amount : Option ℝ := none
  breathe_speed : Option ℝ := none
  rotation_speed : Option ℝ := none

/-- The per-sprite motion dict built at src/app/ai.py lines 377-388. -/
structure MotionData where
  scale_base : ℝ
  scale_target : ℝ
  angle_base : ℝ
  control_points : List (ℝ × ℝ)
  breathe_amount : ℝ
  breathe_speed : ℝ
  pulse_amount : ℝ
  pulse_speed : ℝ
  rotation_speed : ℝ
  path_type : String

/-- Model of `rng.uniform(a, b)`: `a + (b - a) * rng.random()`, consuming one draw of
the unit-interval stream `u` at position `k`. -/
def runiform (u : ℕ → ℝ) (k : ℕ) (a b : ℝ) : ℝ × ℕ := (a + (b - a) * u k, k + 1)

/-- Model of `rng.randint(a, b)`: one integer draw of the stream `z`, reduced into
`[a, b]`. -/
def rrandint (z : ℕ → ℕ) (k : ℕ) (a b : ℕ) : ℕ × ℕ := (a + z k % (b - a + 1), k + 1)

/-- Model of `rng.choice(xs)`: one integer draw of the stream `z`, used as an index
into `xs`. -/
def rchoice (z : ℕ → ℕ) (k : ℕ) (xs : List String) : String × ℕ :=
  (xs.getD (z k % xs.length) (""), k + 1)

/-- The fixed-position micro-movement path of src/app/ai.py lines 155-170:
8 points, each consuming four `rng.random()` draws (two per axis, in source
order), scaled by the micro-movement amplitude.  These points are not
clamped and not spline-converted. -/
def microPoints (u : ℕ → ℝ) (k : ℕ) (base_x base_y micro_move : ℝ) : List (ℝ × ℝ) :=
  (List.range 8).map (fun (p : ℕ) =>
    let t_offset : ℝ := (p : ℝ) / 8
    let noise_x := Real.sin (t_offset * 6.28 + u (k + 4 * p) * 10) *
      Real.sin (t_offset * 9.42 + u (k + 4 * p + 1) * 10)
    let noise_y := Real.sin (t_offset * 7.85 + u (k + 4 * p + 2) * 10) *
      Real.sin (t_offset * 5.67 + u (k + 4 * p + 3) * 10)
    (base_x + noise_x * micro_move, base_y + noise_y * micro_move))

/-- The circle-style anchors of src/app/ai.py lines 184-194: anchor `p` at
angle `p·2π/num_points`, radius `move_range · (0.7 + rng.random()·0.3)`
(one draw per anchor), clamped into the canvas margins. -/
def circleAnchors (u : ℕ → ℝ) (k : ℕ) (base_x base_y move_range margin w h : ℝ)
    (num_points : ℕ) : List (ℝ × ℝ) :=
  (List.range num_points).map (fun (p : ℕ) =>
    let angle : ℝ := (p : ℝ) * 2 * Real.pi / (num_points : ℝ)
    let radius := move_range * (0.7 + u (k + p) * 0.3)
    clampPt margin w h (base_x + Real.cos angle * radius) (base_y + Real.sin angle * radius))

/-- The figure-8 anchors of src/app/ai.py lines 196-206. -/
def figure8Anchors (u : ℕ → ℝ) (k : ℕ) (base_x base_y move_range margin w h : ℝ)
    (num_points : ℕ) : List (ℝ × ℝ) :=
  (List.range num_points).map (fun (p : ℕ) =>
    let angle : ℝ := (p : ℝ) * 2 * Real.pi / (num_points : ℝ)
    let radius := move_range * (0.7 + u (k + p) * 0.3)
    clampPt margin w h (base_x + Real.sin (angle * 2) * radius * 0.5)
      (base_y + Real.sin angle * radius))

/-- The wave anchors of src/app/ai.py lines 208-220 (no random draws). -/
def waveAnchors (base_x base_y move_range margin w h : ℝ) (num_points : ℕ) :
    List (ℝ × ℝ) :=
  (List.range num_points).map (fun (p : ℕ) =>
    let t : ℝ := (p : ℝ) / (num_points : ℝ)
    let wave_x := move_range * Real.sin (t * 2 * Real.pi * 2)
    let wave_y := move_range * 0.3 * Real.sin (t * 2 * Real.pi * 4)
    clampPt margin w h (base_x + wave_x) (base_y + wave_y))

/-- The three organic key points of src/app/ai.py lines 227-237: random
angle then random distance (two draws per point), clamped. -/
def organicKeyPoints (u : ℕ → ℝ) (k : ℕ) (base_x base_y move_range margin w h : ℝ) :
    List (ℝ × ℝ) :=
  (List.range 3).map (fun (j : ℕ) =>
    let angle := u (k + 2 * j) * 2 * Real.pi
    let distance := move_range * (0.5 + u (k + 2 * j + 1) * 0.5)
    clampPt margin w h (base_x + Real.cos angle * distance)
      (base_y + Real.sin angle * distance))

/-- One iteration of the organic intermediate-point loop, src/app/ai.py
lines 240-268: append key point `j`, then `randint(1, 2)` intermediate
points between key point `j` and its successor, each consuming a position
draw and a perpendicular-offset draw and clamped to bounds. -/
def organicStep (u : ℕ → ℝ) (z : ℕ → ℕ) (kp : List (ℝ × ℝ))
    (move_range margin w h : ℝ) (st : List (ℝ × ℝ) × ℕ) (j : ℕ) :
    List (ℝ × ℝ) × ℕ :=
  let q1 := kp.getD j (0, 0)
  let q2 := kp.getD ((j + 1) % kp.length) (0, 0)
  let cnt := 1 + z st.2 % 2
  let inner := fun (st2 : List (ℝ × ℝ) × ℕ) (_ : ℕ) =>
    let t := u st2.2
    let perpendicular_dist := move_range * 0.2 * (u (st2.2 + 1) - 0.5)
    let dx := q2.1 - q1.1
    let dy := q2.2 - q1.2
    let len := Real.sqrt ((-dy) ^ 2 + dx ^ 2)
    let perp := if 0 < len then (-dy / len, dx / len) else (-dy, dx)
    let ix := q1.1 + (q2.1 - q1.1) * t + perp.1 * perpendicular_dist
    let iy := q1.2 + (q2.2 - q1.2) * t + perp.2 * perpendicular_dist
    (st2.1 ++ [clampPt margin w h ix iy], st2.2 + 2)
  (List.range cnt).foldl inner (st.1 ++ [q1], st.2 + 1)

/-- The organic anchor construction of src/app/ai.py lines 222-268: the
base position, then the key points interleaved with their intermediate
points. -/
def organicAnchors (u : ℕ → ℝ) (z : ℕ → ℕ) (k : ℕ)
    (base_x base_y move_range margin w h : ℝ) : List (ℝ × ℝ) × ℕ :=
  let kp := organicKeyPoints u k base_x base_y move_range margin w h
  (List.range 3).foldl (organicStep u z kp move_range margin w h)
    ([(base_x, base_y)], k + 6)

/-- The fully random fallback path of src/app/ai.py lines 308-365 (taken
when no base position is configured): `randint(4, 6)` uniformly random key
points inside the margins, the last point pulled towards the first when
they are more than 20% of the smaller dimension apart, then Catmull-Rom
conversion with `num_segments = 5`. -/
def randomKeyPath (u : ℕ → ℝ) (z : ℕ → ℕ) (k : ℕ) (margin w h : ℝ) :
    List (ℝ × ℝ) × ℕ :=
  let num_key_points := 4 + z k % 3
  let k1 := k + 1
  let kp := (List.range num_key_points).map (fun (p : ℕ) =>
    (margin + (w - margin - margin) * u (k1 + 2 * p),
     margin + (h - margin - margin) * u (k1 + 2 * p + 1)))
  let k2 := k1 + 2 * num_key_points
  let first := kp.getD 0 (0, 0)
  let last := kp.getD (kp.length - 1) (0, 0)
  let dist := Real.sqrt ((first.1 - last.1) ^ 2 + (first.2 - last.2) ^ 2)
  let kp2 := if min w h * 0.2 < dist then
      kp.set (kp.length - 1)
        (first.1 + (last.1 - first.1) * 0.2, first.2 + (last.2 - first.2) * 0.2)
    else kp
  (catmullRom 5 kp2 margin w h, k2)

/-- One iteration of the avatar loop of `composite_video`, src/app/ai.py
lines 120-389, with the SMPL enhancement module unavailable
(`SMPL_AVAILABLE = False`, so `char_settings` is used as passed in).  Dict
defaults of the form `char_settings.get(key, rng.xxx())` evaluate the
random default eagerly, so a draw is consumed whether or not the key is
set; `path_type` and the loop variable `angle` leak across iterations
(`locals()` at line 387, the anchor loops overwrite `angle` before line
380 stores it as `angle_base`), which `lastPathType` and the returned
angle model faithfully.  Returns the motion data, the advanced draw
counter and the `path_type` visible to `locals()` afterwards. -/
def buildMotion (u : ℕ → ℝ) (z : ℕ → ℕ) (w h : ℝ) (s : CharSettings)
    (k : ℕ) (lastPathType : Option String) : MotionData × ℕ × Option String :=
  let d1 := runiform u k 0.35 0.6
  let scale0 := s.scale.getD d1.1
  let d2 := runiform u d1.2 0.8 1.25
  let scale_variation := s.scale_variation.getD d2.1
  let scale1 := scale0 * scale_variation
  let d3 := runiform u d2.2 (-8) 8
  let angle0 := s.rotation.getD d3.1
  let margin := 0.15 * min w h
  let k3 := d3.2
  let br :=
    if s.position_x.isSome && s.position_y.isSome then
      let base_x := s.position_x.getD 0
      let base_y := s.position_y.getD 0
      if s.fixed_position.getD false then
        let micro_move := s.micro_movement.getD (min w h * 0.02)
        (microPoints u k3 base_x base_y micro_move, k3 + 32, angle0, lastPathType)
      else
        let move_range := s.move_range.getD 0.4 * min w h
        let r1 := rrandint z k3 6 9
        let num_points := r1.1
        let r2 := rchoice z r1.2 ["circle", "figure8", "organic", "wave"]
        let path_type := s.path_type.getD r2.1
        if path_type = "circle" then
          (catmullRom 4 (circleAnchors u r2.2 base_x base_y move_range margin w h num_points)
              margin w h,
            r2.2 + num_points,
            ((num_points - 1 : ℕ) : ℝ) * 2 * Real.pi / (num_points : ℝ),
            some path_type)
        else if path_type = "figure8" then
          (catmullRom 4 (figure8Anchors u r2.2 base_x base_y move_range margin w h num_points)
              margin w h,
            r2.2 + num_points,
            ((num_points - 1 : ℕ) : ℝ) * 2 * Real.pi / (num_points : ℝ),
            some path_type)
        else if path_type = "wave" then
          (catmullRom 4 (waveAnchors base_x base_y move_range margin w h num_points) margin w h,
            r2.2, angle0, some path_type)
        else
          let og := organicAnchors u z r2.2 base_x base_y move_range margin w h
          (catmullRom 4 og.1 margin w h, og.2, u (r2.2 + 4) * 2 * Real.pi, some path_type)
    else
      let rp := randomKeyPath u z k3 margin w h
      (rp.1, rp.2, angle0, lastPathType)
  let cps := br.1
  let k4 := br.2.1
  let finalAngle := br.2.2.1
  let pt := br.2.2.2
  let d4 := runiform u k4 0.02 0.05
  let breathe_amount := s.breathe_amount.getD d4.1
  let d5 := runiform u d4.2 0.8 1.3
  let breathe_speed := s.breathe_speed.getD d5.1
  let pulse_amount := breathe_amount * 0.3
  let pulse_speed := breathe_speed * 2.7
  let d6 := runiform u d5.2 0.7 1.3
  let rotation_speed := s.rotation_speed.getD d6.1
  ({ scale_base := scale0, scale_target := scale1, angle_base := finalAngle,
     control_points := cps, breathe_amount := breathe_amount,
     breathe_speed := breathe_speed, pulse_amount := pulse_amount,
     pulse_speed := pulse_speed, rotation_speed := rotation_speed,
     path_type := pt.getD ("organic") }, d6.2, pt)

/-- The full motion-building pass of `composite_video` (src/app/ai.py lines
115-389): fold `buildMotion` over the avatar indices, threading the single
seeded random source (draw counter) and the leaked `path_type`. -/
def composite_video_motions (u : ℕ → ℝ) (z : ℕ → ℕ) (num_avatars : ℕ)
    (w h : ℝ) (cs : ℕ → CharSettings) : List MotionData :=
  ((List.range num_avatars).foldl (fun st i =>
      let r := buildMotion u z w h (cs i) st.2.1 st.2.2
      (st.1 ++ [r.1], r.2.1, r.2.2))
    ([], 0, none)).1

end

lemma floor_eval {q : ℚ} {z : ℤ} (h1 : (z:ℚ) ≤ q) (h2 : q < (z:ℚ) + 1) : ⌊q⌋ = z :=
  Int.floor_eq_iff.mpr ⟨h1, h2⟩

lemma ceil_eval {q : ℚ} {z : ℤ} (h1 : (z:ℚ) - 1 < q) (h2 : q ≤ (z:ℚ)) : ⌈q⌉ = z :=
  Int.ceil_eq_iff.mpr ⟨h1, h2⟩

lemma pyTrunc_add_one (t : ℚ) (h : 0 ≤ t) : pyTrunc (t + 1) = pyTrunc t + 1 := by
  unfold pyTrunc
  rw [if_pos h, if_pos (by linarith : (0:ℚ) ≤ t + 1)]
  exact Int.floor_add_one t

lemma get_path_position_congr (points : List (ℚ × ℚ)) {t t' : ℚ}
    (h : t - (pyTrunc t : ℚ) = t' - (pyTrunc t' : ℚ)) :
    get_path_position points t = get_path_position points t' := by
  unfold get_path_position
  rw [h]

/-- C1 (amended): path sampling is periodic in the sampling parameter for
nonnegative parameters: for every path and every `τ ≥ 0`,
`get_path_position points τ = get_path_position points (τ + 1)`.  (For
negative `τ` the Python `int()` truncation leaves `t_looped` negative and
the claim fails, see the counterexample.) -/
theorem c1_period_of_nonneg (points : List (ℚ × ℚ)) (t : ℚ)
    (_h2 : 2 ≤ points.length) (h0 : 0 ≤ t) :
    get_path_position points t = get_path_position points (t + 1) :=
  get_path_position_congr points (by rw [pyTrunc_add_one t h0]; push_cast; ring)

/-- Witness for C1 (amended) at the concrete path `[(0,0),(1,0)]`, `τ = 0`. -/
theorem c1_period_witness :
    get_path_position [((0:ℚ), (0:ℚ)), (1, 0)] 0 =
      get_path_position [((0:ℚ), (0:ℚ)), (1, 0)] (0 + 1) :=
  c1_period_of_nonneg [((0:ℚ), (0:ℚ)), (1, 0)] 0 (by norm_num) (by norm_num)

/-- C1 (counterexample): on the path `[(0,0),(1,0),(2,0)]` the claimed
periodicity fails at `τ = -1/2`: sampling at `-1/2` lands on the point
`(2,0)` (via Python negative indexing) while sampling at `1/2` yields
`(1,0)`. -/
theorem c1_counterexample :
    get_path_position [((0:ℚ), (0:ℚ)), (1, 0), (2, 0)] (-(1/2)) = (2, 0) ∧
    get_path_position [((0:ℚ), (0:ℚ)), (1, 0), (2, 0)] (-(1/2) + 1) = (1, 0) ∧
    (((2:ℚ), (0:ℚ)) : ℚ × ℚ) ≠ ((1:ℚ), (0:ℚ)) := by
  have hneg : get_path_position [((0:ℚ), (0:ℚ)), (1, 0), (2, 0)] (-(1/2)) = (2, 0) := by
    have hc0 : ⌈(-(1/2) : ℚ)⌉ = (0 : ℤ) := ceil_eval (by norm_num) (by norm_num)
    have hc1 : ⌈(-1 : ℚ)⌉ = (-1 : ℤ) := ceil_eval (by norm_num) (by norm_num)
    simp only [get_path_position]
    rw [if_neg (by simp)]
    norm_num [pyTrunc, hc0, hc1, List.length_cons, List.length_nil, min_def, pyGet, easeInOut]
    simp
  have hpos : get_path_position [((0:ℚ), (0:ℚ)), (1, 0), (2, 0)] (-(1/2) + 1) = (1, 0) := by
    have hf0 : ⌊(-(1/2) + 1 : ℚ)⌋ = (0 : ℤ) := floor_eval (by norm_num) (by norm_num)
    have hf1 : ⌊(1 : ℚ)⌋ = (1 : ℤ) := floor_eval (by norm_num) (by norm_num)
    simp only [get_path_position]
    rw [if_neg (by simp)]
    norm_num [pyTrunc, hf0, hf1, List.length_cons, List.length_nil, min_def, pyGet, easeInOut]
  exact ⟨hneg, hpos, by norm_num [Prod.ext_iff]⟩

lemma easeInOut_bounds {s : ℚ} (hs0 : 0 ≤ s) (hs1 : s < 1) :
    0 ≤ easeInOut s ∧ easeInOut s ≤ 1 := by
  unfold easeInOut
  split
  · rename_i hlt
    constructor
    · positivity
    · have h3 : s ^ 3 < (1/2:ℚ) ^ 3 := by
        apply pow_lt_pow_left₀ hlt hs0
        norm_num
      nlinarith
  · rename_i hge
    push_neg at hge
    have hb0 : (0:ℚ) < -2 * s + 2 := by linarith
    have hb1 : -2 * s + 2 ≤ 1 := by linarith
    have hc0 : (0:ℚ) < (-2 * s + 2) ^ 3 := by positivity
    have hc1 : (-2 * s + 2) ^ 3 ≤ 1 := pow_le_one₀ (le_of_lt hb0) hb1
    constructor <;> nlinarith

lemma lerp_mem {a b s lo hi : ℚ} (hs0 : 0 ≤ s) (hs1 : s ≤ 1)
    (ha1 : lo ≤ a) (ha2 : a ≤ hi) (hb1 : lo ≤ b) (hb2 : b ≤ hi) :
    lo ≤ a + (b - a) * s ∧ a + (b - a) * s ≤ hi := by
  constructor <;> nlinarith

/-- C10: for a path with at least 2 points and a sampling parameter in
`[0, 1)`, `get_path_position` returns a convex combination of two
consecutive path points (the cubic ease-in-out keeps the segment-local
fraction inside `[0, 1]`), the segment index stays inside the list bounds,
and consequently the sampled position lies inside the axis-aligned bounding
box of the path points. -/
theorem c10_sampler_convex (points : List (ℚ × ℚ)) (t : ℚ) (h2 : 2 ≤ points.length)
    (h0 : 0 ≤ t) (h1 : t < 1) :
    ∃ i : ℕ, ∃ s : ℚ, i + 1 < points.length ∧ 0 ≤ s ∧ s ≤ 1 ∧
      get_path_position points t =
        ((points.getD i (0,0)).1 + ((points.getD (i+1) (0,0)).1 - (points.getD i (0,0)).1) * s,
         (points.getD i (0,0)).2 + ((points.getD (i+1) (0,0)).2 - (points.getD i (0,0)).2) * s) ∧
      (∀ lo hi : ℚ, (∀ p ∈ points, lo ≤ p.1 ∧ p.1 ≤ hi) →
        lo ≤ (get_path_position points t).1 ∧ (get_path_position points t).1 ≤ hi) ∧
      (∀ lo hi : ℚ, (∀ p ∈ points, lo ≤ p.2 ∧ p.2 ≤ hi) →
        lo ≤ (get_path_position points t).2 ∧ (get_path_position points t).2 ≤ hi) := by
  have hne : points ≠ [] := by
    intro h
    rw [h] at h2
    simp at h2
  have hnpos : 0 < points.length := by omega
  set n : ℕ := points.length with hn
  have hns1 : (1:ℤ) ≤ (n:ℤ) - 1 := by omega
  have hnsq : (0:ℚ) < (((n:ℤ) - 1 : ℤ) : ℚ) := by
    push_cast
    have : (2:ℚ) ≤ (n:ℚ) := by exact_mod_cast h2
    linarith
  have htr : pyTrunc t = 0 := by
    unfold pyTrunc
    rw [if_pos h0]
    exact floor_eval (by push_cast; linarith) (by push_cast; linarith)
  set x : ℚ := t * ((((n:ℤ) - 1 : ℤ)) : ℚ) with hxdef
  have hx0 : 0 ≤ x := mul_nonneg h0 (le_of_lt hnsq)
  have hxlt : x < (((n:ℤ) - 1 : ℤ) : ℚ) := by
    calc x = t * ((((n:ℤ) - 1 : ℤ)) : ℚ) := hxdef
    _ < 1 * ((((n:ℤ) - 1 : ℤ)) : ℚ) := by exact mul_lt_mul_of_pos_right h1 hnsq
    _ = (((n:ℤ) - 1 : ℤ) : ℚ) := one_mul _
  set j : ℤ := ⌊x⌋ with hjdef
  have hj0 : 0 ≤ j := Int.floor_nonneg.mpr hx0
  have hjlt : j < (n:ℤ) - 1 := Int.floor_lt.mpr hxlt
  have htrx : pyTrunc x = j := by
    unfold pyTrunc
    rw [if_pos hx0]
  have hmin : min (pyTrunc x) ((n:ℤ) - 1 - 1) = j := by
    rw [htrx]
    exact min_eq_left (by omega)
  have hfr0 : 0 ≤ x - (j:ℚ) := sub_nonneg.mpr (Int.floor_le x)
  have hfr1 : x - (j:ℚ) < 1 := by
    have := Int.lt_floor_add_one x
    push_cast at this
    linarith
  obtain ⟨he0, he1⟩ := easeInOut_bounds hfr0 hfr1
  set i : ℕ := j.toNat with hidef
  have hij : (i:ℤ) = j := Int.toNat_of_nonneg hj0
  have hilt : i + 1 < n := by omega
  have hg1 : pyGet points j = points.getD i (0,0) := by
    unfold pyGet
    rw [if_neg (by omega)]
  have hg2 : pyGet points (j+1) = points.getD (i+1) (0,0) := by
    unfold pyGet
    rw [if_neg (by omega)]
    have hto : (j+1).toNat = i + 1 := by omega
    rw [hto]
  have hmain : get_path_position points t =
      ((points.getD i (0,0)).1 + ((points.getD (i+1) (0,0)).1 - (points.getD i (0,0)).1) * easeInOut (x - (j:ℚ)),
       (points.getD i (0,0)).2 + ((points.getD (i+1) (0,0)).2 - (points.getD i (0,0)).2) * easeInOut (x - (j:ℚ))) := by
    unfold get_path_position
    rw [if_neg hne]
    simp only [htr, Int.cast_zero, sub_zero, ← hn, ← hxdef, hmin, hg1, hg2]
  have hmem1 : points.getD i (0,0) ∈ points := by
    rw [List.getD_eq_getElem?_getD, List.getElem?_eq_getElem (by omega : i < points.length),
      Option.getD_some]
    exact List.getElem_mem _
  have hmem2 : points.getD (i+1) (0,0) ∈ points := by
    rw [List.getD_eq_getElem?_getD, List.getElem?_eq_getElem (by omega : i + 1 < points.length),
      Option.getD_some]
    exact List.getElem_mem _
  refine ⟨i, easeInOut (x - (j:ℚ)), hilt, he0, he1, hmain, ?_, ?_⟩
  · intro lo hi hall
    rw [hmain]
    exact lerp_mem he0 he1 (hall _ hmem1).1 (hall _ hmem1).2 (hall _ hmem2).1 (hall _ hmem2).2
  · intro lo hi hall
    rw [hmain]
    exact lerp_mem he0 he1 (hall _ hmem1).1 (hall _ hmem1).2 (hall _ hmem2).1 (hall _ hmem2).2

/-- Witness for C10 at the concrete path `[(0,0),(2,4)]` and `τ = 1/4`. -/
theorem c10_sampler_convex_witness :
    ∃ i : ℕ, ∃ s : ℚ, i + 1 < ([((0:ℚ), (0:ℚ)), (2, 4)]).length ∧ 0 ≤ s ∧ s ≤ 1 ∧
      get_path_position [((0:ℚ), (0:ℚ)), (2, 4)] (1/4) =
        ((([((0:ℚ), (0:ℚ)), (2, 4)]).getD i (0,0)).1 +
            ((([((0:ℚ), (0:ℚ)), (2, 4)]).getD (i+1) (0,0)).1 -
              (([((0:ℚ), (0:ℚ)), (2, 4)]).getD i (0,0)).1) * s,
         (([((0:ℚ), (0:ℚ)), (2, 4)]).getD i (0,0)).2 +
            ((([((0:ℚ), (0:ℚ)), (2, 4)]).getD (i+1) (0,0)).2 -
              (([((0:ℚ), (0:ℚ)), (2, 4)]).getD i (0,0)).2) * s) ∧
      (∀ lo hi : ℚ, (∀ p ∈ [((0:ℚ), (0:ℚ)), (2, 4)], lo ≤ p.1 ∧ p.1 ≤ hi) →
        lo ≤ (get_path_position [((0:ℚ), (0:ℚ)), (2, 4)] (1/4)).1 ∧
          (get_path_position [((0:ℚ), (0:ℚ)), (2, 4)] (1/4)).1 ≤ hi) ∧
      (∀ lo hi : ℚ, (∀ p ∈ [((0:ℚ), (0:ℚ)), (2, 4)], lo ≤ p.2 ∧ p.2 ≤ hi) →
        lo ≤ (get_path_position [((0:ℚ), (0:ℚ)), (2, 4)] (1/4)).2 ∧
          (get_path_position [((0:ℚ), (0:ℚ)), (2, 4)] (1/4)).2 ≤ hi) :=
  c10_sampler_convex [((0:ℚ), (0:ℚ)), (2, 4)] (1/4) (by norm_num) (by norm_num) (by norm_num)

/-- C3 (amended): all sprites' sort keys are computed first (a separate
pass over the motions), and sprites are composited in ascending order of
the `y` of the path position sampled at the raw frame time `t` — which is
not, in general, the `y` of the position actually used to paste the sprite
(that one is sampled at the eased, speed-adjusted parameter; see the
counterexample).  The emitted order is a permutation of all sprite indices
and is sorted by the raw-time key. -/
theorem c3_order_sorted_by_raw_key (ms : List SpriteMotion) (t : ℚ)
    (hall : ∀ m ∈ ms, m.control_points ≠ []) :
    (spriteOrder ms t).Perm (List.range ms.length) ∧
    List.Sorted (fun i j => sortKeyY ms t i ≤ sortKeyY ms t j) (spriteOrder ms t) := by
  have hb : ms.all (fun m => !m.control_points.isEmpty) = true := by
    rw [List.all_eq_true]
    intro m hm
    simpa using hall m hm
  unfold spriteOrder
  rw [if_pos hb]
  constructor
  · exact List.perm_insertionSort _ _
  · haveI : IsTotal ℕ (fun i j => sortKeyY ms t i ≤ sortKeyY ms t j) := ⟨fun a b => le_total _ _⟩
    haveI : IsTrans ℕ (fun i j => sortKeyY ms t i ≤ sortKeyY ms t j) :=
      ⟨fun a b c h1 h2 => le_trans h1 h2⟩
    exact List.sorted_insertionSort _ _

/-- Witness for C3 (amended) on a one-sprite scene at `t = 0`. -/
theorem c3_order_witness :
    (spriteOrder [⟨[((0:ℚ), (0:ℚ)), (0, 10)], 1⟩] 0).Perm (List.range 1) ∧
    List.Sorted (fun i j => sortKeyY [⟨[((0:ℚ), (0:ℚ)), (0, 10)], 1⟩] 0 i ≤
        sortKeyY [⟨[((0:ℚ), (0:ℚ)), (0, 10)], 1⟩] 0 j)
      (spriteOrder [⟨[((0:ℚ), (0:ℚ)), (0, 10)], 1⟩] 0) := by
  have h := c3_order_sorted_by_raw_key [⟨[((0:ℚ), (0:ℚ)), (0, 10)], 1⟩] 0
    (by intro m hm; rw [List.mem_singleton] at hm; subst hm; simp)
  simpa using h

/-- C3 (counterexample): in `c3Scene` at frame time `t = 1/2`, the
compositing order is `[0, 1]` (sorted by the raw-time keys `5 ≤ 7`), but
the `y` positions actually used to paste are `[5115/512, 7]` with
`5115/512 > 7`: the composite order is not ascending in the paste
position's `y`. -/
theorem c3_counterexample :
    spriteOrder c3Scene (1/2) = [0, 1] ∧
    ((spriteOrder c3Scene (1/2)).map (fun i => pasteY (c3Scene.getD i default) (1/2))) =
      [5115/512, 7] ∧
    ¬ List.Sorted (fun a b : ℚ => a ≤ b) [(5115:ℚ)/512, 7] := by
  have hk0 : sortKeyY c3Scene (1/2) 0 = 5 := by
    have hf0 : ⌊(1/2 : ℚ)⌋ = (0 : ℤ) := floor_eval (by norm_num) (by norm_num)
    simp only [c3Scene, sortKeyY, List.getD_cons_zero]
    simp only [get_path_position]
    rw [if_neg (by simp)]
    norm_num [pyTrunc, hf0, List.length_cons, List.length_nil, min_def, pyGet, easeInOut]
  have hk1 : sortKeyY c3Scene (1/2) 1 = 7 := by
    have hf0 : ⌊(1/2 : ℚ)⌋ = (0 : ℤ) := floor_eval (by norm_num) (by norm_num)
    simp only [c3Scene, sortKeyY, List.getD_cons_succ, List.getD_cons_zero]
    simp only [get_path_position]
    rw [if_neg (by simp)]
    norm_num [pyTrunc, hf0, List.length_cons, List.length_nil, min_def, pyGet, easeInOut]
  have hp0 : pasteY (⟨[((0:ℚ), (0:ℚ)), (0, 10)], 1⟩ : SpriteMotion) (1/2) = 5115/512 := by
    have hf0 : ⌊(3/4 : ℚ)⌋ = (0 : ℤ) := floor_eval (by norm_num) (by norm_num)
    have hf1 : ⌊(15/16 : ℚ)⌋ = (0 : ℤ) := floor_eval (by norm_num) (by norm_num)
    simp only [pasteY, pasteParam, pyMod1]
    norm_num [hf0, easeInOut]
    simp only [get_path_position]
    rw [if_neg (by simp)]
    norm_num [pyTrunc, hf1, List.length_cons, List.length_nil, min_def, pyGet, easeInOut]
  have hp1 : pasteY (⟨[((0:ℚ), (7:ℚ)), (0, 7)], 1⟩ : SpriteMotion) (1/2) = 7 := by
    have hf0 : ⌊(3/4 : ℚ)⌋ = (0 : ℤ) := floor_eval (by norm_num) (by norm_num)
    have hf1 : ⌊(15/16 : ℚ)⌋ = (0 : ℤ) := floor_eval (by norm_num) (by norm_num)
    simp only [pasteY, pasteParam, pyMod1]
    norm_num [hf0, easeInOut]
    simp only [get_path_position]
    rw [if_neg (by simp)]
    norm_num [pyTrunc, hf1, List.length_cons, List.length_nil, min_def, pyGet, easeInOut]
  have hord : spriteOrder c3Scene (1/2) = [0, 1] := by
    unfold spriteOrder
    rw [if_pos (by simp [c3Scene])]
    have hrange : List.range c3Scene.length = [0, 1] := by
      simp [c3Scene]
      rfl
    rw [hrange]
    simp only [List.insertionSort, List.orderedInsert]
    rw [if_pos (by rw [hk0, hk1]; norm_num)]
  refine ⟨hord, ?_, ?_⟩
  · rw [hord]
    simp only [List.map, c3Scene, List.getD_cons_zero, List.getD_cons_succ]
    rw [hp0, hp1]
  · simp only [List.sorted_cons]
    norm_num

/-- C2: determinism of the control-point paths.  All randomization in the
path builder flows from the single seeded generator `random.Random(seed)`
(src/app/ai.py line 108), modelled as the draw streams `u`, `z`; with the
SMPL enhancement module unavailable, two runs of the motion-building pass
of `composite_video` on the same seed (hence the same streams), canvas
size, avatar count and character settings produce bit-identical
`control_points` lists for every sprite. -/
theorem c2_control_points_deterministic (u : ℕ → ℝ) (z : ℕ → ℕ) (num_avatars : ℕ)
    (w h : ℝ) (cs : ℕ → CharSettings) (run1 run2 : List MotionData)
    (h1 : run1 = composite_video_motions u z num_avatars w h cs)
    (h2 : run2 = composite_video_motions u z num_avatars w h cs) :
    run1.map (fun m => m.control_points) = run2.map (fun m => m.control_points) := by
  rw [h1, h2]

/-- Witness for C2: two runs on concrete streams, one avatar, a 100×100
canvas and default settings. -/
theorem c2_control_points_deterministic_witness :
    (composite_video_motions (fun _ => 0) (fun _ => 0) 1 100 100 (fun _ => {})).map
        (fun m => m.control_points) =
      (composite_video_motions (fun _ => 0) (fun _ => 0) 1 100 100 (fun _ => {})).map
        (fun m => m.control_points) :=
  c2_control_points_deterministic (fun _ => 0) (fun _ => 0) 1 100 100 (fun _ => {}) _ _ rfl rfl

/-- C4: the `/generate` duration validation (src/app/main.py line 288).
`duration_seconds = 5` is rejected with the 400 validation error
`duration_seconds must be 10-25` before any path is built or frame is
rendered (the result is an error, not a render trace), while
`duration_seconds = 25` passes the duration check and proceeds to the
render pipeline. -/
theorem c4_duration_validation :
    generate_video_model 5 12 [1] = Except.error ("duration_seconds must be 10-25") ∧
    (generate_video_model 5 12 [1]).isOk = false ∧
    generate_video_model 25 12 [1] = Except.ok (composite_video_trace 25 12) :=
  ⟨rfl, rfl, rfl⟩

/-- C5: frame count and encoder invocation.  For `duration_seconds = 10`
and `fps = 12`, `composite_video` writes exactly 120 frame images named by
zero-padded index `f_00000.png` … `f_00119.png` in order, and invokes the
encoder once over the pattern `f_%05d.png` with framerate 12. -/
theorem c5_frame_count_and_encoder :
    ((composite_video_trace 10 12).filterMap saveName).length = 120 ∧
    (composite_video_trace 10 12).filterMap saveName = (List.range 120).map frameName ∧
    ((composite_video_trace 10 12).filterMap saveName).head? = some ("f_00000.png") ∧
    ((composite_video_trace 10 12).filterMap saveName).getLast? = some ("f_00119.png") ∧
    FSOp.encodeCall ("f_%05d.png") 12 ∈ composite_video_trace 10 12 := by
  decide

/-- C6: degenerate sprite tolerance (src/app/ai.py lines 537-542).  The
per-frame sprite loop emits exactly the sprites whose computed target size
`(int(w·sx), int(h·sy))` has both dimensions at least 5 — a sprite below
that bound (e.g. 4×4) is skipped for the frame without any error, and every
other sprite of the frame is rendered exactly as it would have been. -/
theorem c6_small_sprite_skipped (l : List SpriteFrame) (s : SpriteFrame) :
    renderFrameSprites l = l.filterMap (fun q =>
      if pyTrunc ((q.w : ℚ) * q.sx) < 5 ∨ pyTrunc ((q.h : ℚ) * q.sy) < 5 then none
      else some (pyTrunc ((q.w : ℚ) * q.sx), pyTrunc ((q.h : ℚ) * q.sy))) ∧
    ((pyTrunc ((s.w : ℚ) * s.sx) < 5 ∨ pyTrunc ((s.h : ℚ) * s.sy) < 5) →
      renderFrameSprites (s :: l) = renderFrameSprites l) := by
  constructor
  · induction l with
    | nil => rfl
    | cons a rest ih =>
      simp only [renderFrameSprites, List.filterMap_cons]
      split_ifs with hc
      · simpa using ih
      · simpa using ih
  · intro hsmall
    simp only [renderFrameSprites]
    rw [if_pos hsmall]

/-- C7 (amended): building a path from fewer than 2 anchors does not fail —
no `DegeneratePathError` exists anywhere in the code.  The Catmull-Rom
conversion with the configured-path `num_segments = 4` always emits exactly
`4 · len(anchors)` control points (neighbour indices wrap modulo the anchor
count, so 0 or 1 anchors are processed without error), and sampling an
empty path merely returns `(0, 0)` (src/app/ai.py lines 398-399). -/
theorem c7_no_degenerate_path_error (anchors : List (ℝ × ℝ)) (margin w h : ℝ) (t : ℚ) :
    (catmullRom 4 anchors margin w h).length = 4 * anchors.length ∧
    get_path_position [] t = (0, 0) := by
  constructor
  · unfold catmullRom
    rw [List.length_flatMap]
    simp [Function.comp_def]
    omega
  · rfl

/-- C7 (counterexample): with the single anchor `(5,5)` (margin 0, canvas
100×100) the conversion succeeds and returns the well-defined 4-point path
`[(5,5),(5,5),(5,5),(5,5)]`, and sampling the empty path returns `(0,0)`:
path construction from fewer than 2 anchors does not raise any error, so no
`DegeneratePathError` is possible. -/
theorem c7_counterexample :
    catmullRom 4 [((5:ℝ), (5:ℝ))] 0 100 100 = [((5:ℝ), (5:ℝ)), (5, 5), (5, 5), (5, 5)] ∧
    get_path_position [] (1/2) = (0, 0) := by
  constructor
  · unfold catmullRom
    simp [List.range_succ, clampPt]
    norm_num
  · rfl

lemma circleAnchors_getD (u : ℕ → ℝ) (k : ℕ) (base_x base_y move_range margin w h : ℝ)
    (num_points p : ℕ) (hp : p < num_points) (d : ℝ × ℝ) :
    (circleAnchors u k base_x base_y move_range margin w h num_points).getD p d =
      clampPt margin w h
        (base_x + Real.cos ((p : ℝ) * 2 * Real.pi / (num_points : ℝ)) *
          (move_range * (0.7 + u (k + p) * 0.3)))
        (base_y + Real.sin ((p : ℝ) * 2 * Real.pi / (num_points : ℝ)) *
          (move_range * (0.7 + u (k + p) * 0.3))) := by
  unfold circleAnchors
  rw [List.getD_eq_getElem?_getD, List.getElem?_map, List.getElem?_range hp]
  rfl

/-- C8 (amended): for a circle-style sprite with effective move-range 100,
every anchor whose raw coordinates are not altered by the canvas clamp lies
at Euclidean distance within `[70, 100]` of the base position, for every
stream of unit-interval draws — hence in particular for the stream produced
by seed 7.  (A clamped anchor can land arbitrarily closer than 70, see the
counterexample.) -/
theorem c8_circle_radius_of_unclamped (u : ℕ → ℝ) (k : ℕ) (base_x base_y margin w h : ℝ)
    (num_points p : ℕ) (hp : p < num_points)
    (hu0 : 0 ≤ u (k + p)) (hu1 : u (k + p) < 1)
    (hx1 : margin ≤ base_x + Real.cos ((p : ℝ) * 2 * Real.pi / (num_points : ℝ)) *
      (100 * (0.7 + u (k + p) * 0.3)))
    (hx2 : base_x + Real.cos ((p : ℝ) * 2 * Real.pi / (num_points : ℝ)) *
      (100 * (0.7 + u (k + p) * 0.3)) ≤ w - margin)
    (hy1 : margin ≤ base_y + Real.sin ((p : ℝ) * 2 * Real.pi / (num_points : ℝ)) *
      (100 * (0.7 + u (k + p) * 0.3)))
    (hy2 : base_y + Real.sin ((p : ℝ) * 2 * Real.pi / (num_points : ℝ)) *
      (100 * (0.7 + u (k + p) * 0.3)) ≤ h - margin) :
    70 ≤ Real.sqrt
        ((((circleAnchors u k base_x base_y 100 margin w h num_points).getD p (0, 0)).1 - base_x) ^ 2 +
         (((circleAnchors u k base_x base_y 100 margin w h num_points).getD p (0, 0)).2 - base_y) ^ 2) ∧
      Real.sqrt
        ((((circleAnchors u k base_x base_y 100 margin w h num_points).getD p (0, 0)).1 - base_x) ^ 2 +
         (((circleAnchors u k base_x base_y 100 margin w h num_points).getD p (0, 0)).2 - base_y) ^ 2) ≤ 100 := by
  rw [circleAnchors_getD _ _ _ _ _ _ _ _ _ _ hp]
  set θ : ℝ := (p : ℝ) * 2 * Real.pi / (num_points : ℝ) with hθ
  set r : ℝ := 100 * (0.7 + u (k + p) * 0.3) with hr
  have hr70 : (70:ℝ) ≤ r := by rw [hr]; nlinarith
  have hr100 : r ≤ (100:ℝ) := by rw [hr]; nlinarith
  have hclx : (clampPt margin w h (base_x + Real.cos θ * r) (base_y + Real.sin θ * r)).1 =
      base_x + Real.cos θ * r := by
    unfold clampPt
    rw [min_eq_right hx2, max_eq_right hx1]
  have hcly : (clampPt margin w h (base_x + Real.cos θ * r) (base_y + Real.sin θ * r)).2 =
      base_y + Real.sin θ * r := by
    unfold clampPt
    rw [min_eq_right hy2, max_eq_right hy1]
  rw [hclx, hcly]
  have hsum : (base_x + Real.cos θ * r - base_x) ^ 2 + (base_y + Real.sin θ * r - base_y) ^ 2 =
      (Real.sin θ ^ 2 + Real.cos θ ^ 2) * r ^ 2 := by ring
  rw [hsum, Real.sin_sq_add_cos_sq, one_mul, Real.sqrt_sq (by linarith : (0:ℝ) ≤ r)]
  exact ⟨hr70, hr100⟩

/-- Witness for C8 (amended): anchor 0 of a 6-anchor circle around
`(500, 500)` on a 2000×2000 canvas (margin 300) with the all-zero draw
stream sits at distance exactly 70 from the base. -/
theorem c8_circle_radius_witness :
    70 ≤ Real.sqrt
        ((((circleAnchors (fun _ => 0) 0 500 500 100 300 2000 2000 6).getD 0 (0, 0)).1 - 500) ^ 2 +
         (((circleAnchors (fun _ => 0) 0 500 500 100 300 2000 2000 6).getD 0 (0, 0)).2 - 500) ^ 2) ∧
      Real.sqrt
        ((((circleAnchors (fun _ => 0) 0 500 500 100 300 2000 2000 6).getD 0 (0, 0)).1 - 500) ^ 2 +
         (((circleAnchors (fun _ => 0) 0 500 500 100 300 2000 2000 6).getD 0 (0, 0)).2 - 500) ^ 2) ≤ 100 :=
  c8_circle_radius_of_unclamped (fun _ => 0) 0 500 500 300 2000 2000 6 0 (by norm_num)
    (by norm_num) (by norm_num)
    (by norm_num [Real.cos_zero]) (by norm_num [Real.cos_zero])
    (by norm_num [Real.sin_zero]) (by norm_num [Real.sin_zero])

/-- C8 (counterexample): on a 100×100 canvas (margin 15 = 0.15·100) with
base `(50, 50)` and effective move-range 100, anchor 0 is clamped from
`(120, 50)` to `(85, 50)`, whose distance from the base is 35 — outside
`[70, 100]`.  The raw radius is at least 70 for every draw value, so the
clamp forces this violation regardless of the seed. -/
theorem c8_counterexample :
    (circleAnchors (fun _ => 0) 0 50 50 100 15 100 100 6).getD 0 (0, 0) = (85, 50) ∧
    Real.sqrt (((85:ℝ) - 50) ^ 2 + ((50:ℝ) - 50) ^ 2) = 35 ∧
    ¬ (70 ≤ (35:ℝ)) := by
  refine ⟨?_, ?_, by norm_num⟩
  · rw [circleAnchors_getD _ _ _ _ _ _ _ _ _ _ (by norm_num)]
    have hang : ((0:ℕ) : ℝ) * 2 * Real.pi / ((6:ℕ) : ℝ) = 0 := by
      simp
    rw [hang, Real.cos_zero, Real.sin_zero]
    unfold clampPt
    norm_num [min_def, max_def]
  · rw [show ((85:ℝ) - 50) ^ 2 + ((50:ℝ) - 50) ^ 2 = 35 ^ 2 by norm_num]
    exact Real.sqrt_sq (by norm_num)

/-- C9 (amended): `composite_video` never removes its temporary frames
directory — neither after successful encoding nor on the way to a failure:
no directory-removal operation occurs in its effect trace, nor in any
prefix of it (the operations performed before an encoder failure form a
prefix of the trace). -/
theorem c9_no_directory_removal (duration_s fps : ℕ) :
    FSOp.removeDir ∉ composite_video_trace duration_s fps ∧
    ∀ k, FSOp.removeDir ∉ (composite_video_trace duration_s fps).take k := by
  have hmem : FSOp.removeDir ∉ composite_video_trace duration_s fps := by
    unfold composite_video_trace
    intro hin
    rcases List.mem_cons.mp hin with h1 | h2
    · exact FSOp.noConfusion h1
    · rcases List.mem_append.mp h2 with h3 | h4
      · obtain ⟨f, _, hf⟩ := List.mem_map.mp h3
        exact FSOp.noConfusion hf
      · simp at h4
  exact ⟨hmem, fun k hk => hmem (List.take_subset k _ hk)⟩

/-- C9 (counterexample): for the concrete job `duration_seconds = 10`,
`fps = 12`, the full effect trace of `composite_video` (122 operations:
mkdtemp, 120 frame saves, one encoder invocation) contains no
directory-removal operation, so the temporary directory is not removed on
the success path (nor, a fortiori, on any failure prefix). -/
theorem c9_counterexample :
    (composite_video_trace 10 12).length = 122 ∧
    FSOp.removeDir ∉ composite_video_trace 10 12 := by
  decide

end AIVideoGe
